import Mathlib

/-!
Verification of the Zero-Touch ingestion, classification and provider
orchestration core.

This file gives a shallow embedding, in Lean, of the JavaScript core of the
repository:

* `src/api/src/services/nlp-classifier.js` — `classifyLead` with its
  validation helpers (`validateIntent`, `validatePersona`, `validateVertical`)
  and its fixed fallback result;
* `src/api/src/routes/webhook.js` — the `POST /ingest` handler
  (payload validation, classification, ledger insert, audit insert,
  `lead:new` event emission) and `calculatePriority`;
* `src/api/src/services/event-bus.js` — `EventBus.emit` / `EventBus.subscribe`
  with Node's emitter dispatch semantics and the wrapped-handler try/catch;
* `src/api/src/services/provider-manager.js` — the in-memory provider map,
  `get`, `setDefault`, `runHealthChecks`.

Modelling conventions:

* JavaScript numbers that the code treats with `parseInt` / `parseFloat` and
  order comparisons are modelled as `ℚ` (the operations used are exact);
  `parseInt` applied to a numeric value truncates toward zero, modelled by
  `jsTrunc`.  A field of the external classifier's JSON that is missing or
  non-numeric (so that `parseInt`/`parseFloat` yield `NaN`) is modelled as
  `none`.
* JavaScript `x || d` on numbers replaces `NaN` and `0` by `d`
  (`jsOrInt`, `jsOrRat`); on strings it replaces a missing value and `""`
  by `d` (`jsOrStr`).
* External effects (the OpenAI call, the two database inserts, provider
  health probes and health persistence) are passed in as explicit outcome
  values, so each handler becomes a total function of its inputs and the
  outcomes of its external calls.
* JavaScript string operations on provider keys (`` `${type}:${name}` `` and
  `key.startsWith(type + ':')`) are modelled on the character sequences of
  the strings.
-/

namespace ZeroTouch

/-! ## JavaScript value helpers -/

/-- Truncation toward zero, the behaviour of JS `parseInt` on a numeric
value (`Int.tdiv` is T-division). -/
def jsTrunc (q : ℚ) : ℤ := Int.tdiv q.num (q.den : ℤ)

/-- JS `parseInt(x) || d`: a missing/non-numeric value (`NaN`) and `0` are
falsy and replaced by the default. -/
def jsOrInt (x : Option ℚ) (d : ℤ) : ℤ :=
  match x with
  | none => d
  | some q => if jsTrunc q = 0 then d else jsTrunc q

/-- JS `parseFloat(x) || d`: `NaN` and `0` are falsy and replaced by the
default. -/
def jsOrRat (x : Option ℚ) (d : ℚ) : ℚ :=
  match x with
  | none => d
  | some q => if q = 0 then d else q

/-- JS `x || d` on an optional string: `undefined` and `""` are falsy. -/
def jsOrStr (x : Option String) (d : String) : String :=
  match x with
  | none => d
  | some s => if s = "" then d else s

/-- The rational 0.5 (kernel-reducible representation). -/
def ratHalf : ℚ := ⟨1, 2, by decide, by decide⟩

/-- The rational 0.3 (kernel-reducible representation). -/
def ratThreeTenths : ℚ := ⟨3, 10, by decide, by decide⟩

/-! ## Classification adapter (`nlp-classifier.js`) -/

/-- The closed intent enumeration of `validateIntent`. -/
def validIntents : List String :=
  ["buying", "selling", "suing", "asking", "complaining", "scheduling", "other"]

/-- The closed persona enumeration of `validatePersona`. -/
def validPersonas : List String :=
  ["shark", "empath", "concierge", "professional", "closer"]

/-- The closed vertical enumeration of `validateVertical`. -/
def validVerticals : List String :=
  ["law", "real_estate", "ecommerce", "consulting", "services", "other"]

/-- The JSON object returned by the external classifier, as read by
`classifyLead`.  `none` models a missing field (or, for numeric fields, a
value on which `parseInt`/`parseFloat` yield `NaN`, and for string fields a
non-string value, which fails the `includes` test just as an unknown string
does). -/
structure RawClass where
  intent : Option String := none
  urgency : Option ℚ := none
  estimatedValue : Option ℚ := none
  persona : Option String := none
  vertical : Option String := none
  language : Option String := none
  score : Option ℚ := none
  conversionProbability : Option ℚ := none
  summary : Option String := none
  keyPhrases : Option (List String) := none
deriving DecidableEq

/-- The options object of `classifyLead`. -/
structure ClassifyOptions where
  preferredLanguage : String := "en"
  detectLanguage : Bool := true
deriving DecidableEq

/-- The normalized classification result returned by `classifyLead`
(`embeddings` is always `null` in the source and is omitted). -/
structure Classification where
  intent : String
  urgency : ℤ
  estimatedValue : ℚ
  persona : String
  vertical : String
  language : String
  score : ℤ
  conversionProbability : ℚ
  summary : String
  keyPhrases : List String
deriving DecidableEq

/-- `validateIntent` of `nlp-classifier.js`: membership in the closed list,
else `"other"`. -/
def validateIntent (x : Option String) : String :=
  match x with
  | none => "other"
  | some s => if s ∈ validIntents then s else "other"

/-- `validatePersona` of `nlp-classifier.js`. -/
def validatePersona (x : Option String) : String :=
  match x with
  | none => "professional"
  | some s => if s ∈ validPersonas then s else "professional"

/-- `validateVertical` of `nlp-classifier.js`. -/
def validateVertical (x : Option String) : String :=
  match x with
  | none => "other"
  | some s => if s ∈ validVerticals then s else "other"

/-- The success path of `classifyLead`: the field-by-field validation and
normalization applied to the external classifier's JSON. -/
def classifyLeadOk (raw : RawClass) (opts : ClassifyOptions) : Classification :=
  { intent := validateIntent raw.intent
    urgency := min 10 (max 1 (jsOrInt raw.urgency 5))
    estimatedValue := jsOrRat raw.estimatedValue 0
    persona := validatePersona raw.persona
    vertical := validateVertical raw.vertical
    language := jsOrStr raw.language opts.preferredLanguage
    score := min 100 (max 1 (jsOrInt raw.score 50))
    conversionProbability := min 1 (max 0 (jsOrRat raw.conversionProbability ratHalf))
    summary := jsOrStr raw.summary ""
    keyPhrases := raw.keyPhrases.getD [] }

/-- The catch branch of `classifyLead`: the fixed low-confidence default
returned whenever the external call, the JSON parse, or the response access
throws. -/
def classifyDefault (preferredLanguage : String) : Classification :=
  { intent := "other"
    urgency := 5
    estimatedValue := 0
    persona := "professional"
    vertical := "other"
    language := preferredLanguage
    score := 30
    conversionProbability := ratThreeTenths
    summary := "Classification failed - manual review needed"
    keyPhrases := [] }

/-- `classifyLead`: the external call's outcome is passed in explicitly.
An `Except.error` outcome models any failure of the external capability
(network error, timeout, unparsable response); the whole body is wrapped in
`try`/`catch`, so the function is total and never re-raises. -/
def classifyLead (outcome : Except String RawClass) (opts : ClassifyOptions) :
    Classification :=
  match outcome with
  | .ok raw => classifyLeadOk raw opts
  | .error _ => classifyDefault opts.preferredLanguage

/-! ## Priority scorer (`webhook.js`, `calculatePriority`) -/

/-- `calculatePriority` of `webhook.js`, transcribed statement by
statement. -/
def calculatePriority (c : Classification) : ℤ :=
  let p : ℤ := 5
  let p := if c.urgency ≥ 8 then p + 3 else if c.urgency ≥ 5 then p + 1 else p
  let p := if c.estimatedValue > 50000 then p + 2
           else if c.estimatedValue > 10000 then p + 1 else p
  let p := if c.intent = "buying" then p + 1 else p
  let p := if c.intent = "suing" then p + 2 else p
  min p 10

/-- The urgency bonus table as the specification states it. -/
def urgencyBonus (u : ℤ) : ℤ := if u ≥ 8 then 3 else if u ≥ 5 then 1 else 0

/-- The value bonus table as the specification states it. -/
def valueBonus (v : ℚ) : ℤ := if v > 50000 then 2 else if v > 10000 then 1 else 0

/-- The intent bonus table as the specification states it. -/
def intentBonus (i : String) : ℤ :=
  if i = "suing" then 2 else if i = "buying" then 1 else 0

/-! ## Ingestion endpoint (`webhook.js`, `POST /ingest`) -/

/-- A JSON value, the shape of `req.body`. -/
inductive Json where
  | obj (fields : List (String × Json))
  | arr (elems : List Json)
  | str (s : String)
  | num (q : ℚ)
  | bool (b : Bool)
  | null

/-- JS truthiness of `req.body` (`!rawData` in the handler); `none` models an
absent body. -/
def jsFalsyBody (b : Option Json) : Bool :=
  match b with
  | none => true
  | some .null => true
  | some (.bool x) => !x
  | some (.num q) => q == 0
  | some (.str s) => s == ""
  | some (.obj _) => false
  | some (.arr _) => false

/-- `Object.keys(rawData).length` for each JSON shape: field names for an
object, indices for an array, character indices for a string, nothing for
primitives. -/
def objectKeysLen (b : Option Json) : Nat :=
  match b with
  | some (.obj fields) => fields.length
  | some (.arr elems) => elems.length
  | some (.str s) => s.length
  | _ => 0

/-- The handler's validation test:
`!rawData || Object.keys(rawData).length === 0`. -/
def bodyRejected (b : Option Json) : Bool :=
  jsFalsyBody b || objectKeysLen b == 0

/-- The classification fields the ledger insert persists, after the
handler's own `|| 'en'`, `|| 50`, `|| 0.5` defaults. -/
structure StoredFields where
  intent : String
  urgency : ℤ
  estimatedValue : ℚ
  persona : String
  vertical : String
  language : String
  score : ℤ
  conversionProbability : ℚ
deriving DecidableEq

/-- The values the `INSERT INTO universal_leads_ledger` statement receives
from a classification (`webhook.js` lines 93–100). -/
def storedOf (c : Classification) : StoredFields :=
  { intent := c.intent
    urgency := c.urgency
    estimatedValue := c.estimatedValue
    persona := c.persona
    vertical := c.vertical
    language := if c.language = "" then "en" else c.language
    score := if c.score = 0 then 50 else c.score
    conversionProbability :=
      if c.conversionProbability = 0 then ratHalf else c.conversionProbability }

/-- The `lead:new` event published on the bus by the handler. -/
structure BusEvent where
  name : String
  leadId : ℕ
  priority : ℤ
deriving DecidableEq

/-- Whether `extractIdentifier(rawData)` throws: it reads `rawData.phone`
(and further aliases), and property access throws a `TypeError` exactly
when `rawData` is `undefined` or `null`; on every other value (boolean,
number, string, object, array) it yields `undefined` or a value without
throwing. -/
def extractIdentifierThrows (b : Option Json) : Bool :=
  match b with
  | none => true
  | some .null => true
  | _ => false

/-- One execution of the ingest handler: the request body, whether the
request carried a truthy `x-source-id` header (when it did, the
short-circuit `req.headers['x-source-id'] || extractIdentifier(rawData)`
never calls `extractIdentifier`), and the outcome of each external call
the handler makes, in program order. -/
structure IngestEnv where
  rid : String
  body : Option Json
  hasSourceId : Bool := false
  classifierOutcome : Except String RawClass
  insertOutcome : Except String ℕ
  auditOutcome : Except String Unit

/-- The observable result of one execution of the ingest handler: the HTTP
response plus which stages ran, what was persisted and what was published. -/
structure IngestResult where
  status : ℕ
  success : Bool
  errorMsg : Option String
  ridEchoed : String
  leadId : Option ℕ
  classifierCalled : Bool
  insertAttempted : Bool
  stored : Option StoredFields
  events : List BusEvent
deriving DecidableEq

/-- The classify options the handler passes
(`preferredLanguage: 'en', detectLanguage: true`). -/
def ingestOpts : ClassifyOptions := { preferredLanguage := "en", detectLanguage := true }

/-- The `POST /ingest` handler of `webhook.js`, step by step: source
metadata extraction (where `extractIdentifier`, reached only without an
`x-source-id` header, throws on a missing or `null` body — the outer
`catch` then answers `500 "Ingestion failed"` with the correlation id
before the empty-payload check is reached), validation, classification
(always completes, see `classifyLead`), ledger insert, audit insert,
`lead:new` emission, `202` response.  A thrown insert or audit rejection
is caught by the same outer `catch`; the emission happens only after both
inserts. -/
def ingest (env : IngestEnv) : IngestResult :=
  if !env.hasSourceId && extractIdentifierThrows env.body then
    { status := 500, success := false, errorMsg := some "Ingestion failed"
      ridEchoed := env.rid, leadId := none, classifierCalled := false
      insertAttempted := false, stored := none, events := [] }
  else if bodyRejected env.body then
    { status := 400, success := false, errorMsg := some "Empty payload"
      ridEchoed := env.rid, leadId := none, classifierCalled := false
      insertAttempted := false, stored := none, events := [] }
  else
    let c := classifyLead env.classifierOutcome ingestOpts
    match env.insertOutcome with
    | .error _ =>
      { status := 500, success := false, errorMsg := some "Ingestion failed"
        ridEchoed := env.rid, leadId := none, classifierCalled := true
        insertAttempted := true, stored := none, events := [] }
    | .ok leadId =>
      match env.auditOutcome with
      | .error _ =>
        { status := 500, success := false, errorMsg := some "Ingestion failed"
          ridEchoed := env.rid, leadId := none, classifierCalled := true
          insertAttempted := true, stored := some (storedOf c), events := [] }
      | .ok _ =>
        { status := 202, success := true, errorMsg := none
          ridEchoed := env.rid, leadId := some leadId, classifierCalled := true
          insertAttempted := true, stored := some (storedOf c)
          events := [{ name := "lead:new", leadId := leadId
                       priority := calculatePriority c }] }

/-! ## Event bus (`event-bus.js`) -/

/-- A handler registered through `EventBus.subscribe`: its id, the event
name it listens to, and the behaviour of the raw handler — `handlerThrows p`
is `true` when the handler throws (or rejects) on payload `p`.  Payloads are
modelled as opaque numbers. -/
structure Subscriber where
  id : ℕ
  eventName : String
  handlerThrows : ℕ → Bool

/-- One delivery record: which subscriber was invoked with which payload,
and whether its handler completed (`false` means the wrapper caught and
logged an exception). -/
structure Delivery where
  subscriberId : ℕ
  payload : ℕ
  handlerCompleted : Bool
deriving DecidableEq

/-- Node's `EventEmitter` dispatch: listeners are invoked in registration
order; a listener that throws synchronously aborts the remaining listeners
and propagates the exception to the caller of `emit`. -/
def rawDispatch (ls : List (ℕ × (ℕ → Except String Bool))) (p : ℕ) :
    Except String (List Delivery) :=
  match ls with
  | [] => .ok []
  | (i, f) :: rest =>
    match f p with
    | .error msg => .error msg
    | .ok completed =>
      (rawDispatch rest p).map (fun ds => ⟨i, p, completed⟩ :: ds)

/-- The wrapped handler installed by `EventBus.subscribe`: an `async`
closure whose body is `try { await handler(data) } catch { log }`, so it
never throws synchronously; it reports whether the raw handler completed. -/
def wrapHandler (s : Subscriber) : ℕ → Except String Bool :=
  fun p => .ok (!s.handlerThrows p)

/-- The listeners the emitter holds for one event name: the subscribers of
that name, each behind its wrapper, in subscription order. -/
def listenersFor (subs : List Subscriber) (name : String) :
    List (ℕ × (ℕ → Except String Bool)) :=
  (subs.filter (fun s => s.eventName == name)).map (fun s => (s.id, wrapHandler s))

/-- `EventBus.emit` restricted to its dispatch (`super.emit`) part. -/
def busEmit (subs : List Subscriber) (name : String) (p : ℕ) :
    Except String (List Delivery) :=
  rawDispatch (listenersFor subs name) p

/-- The history ring buffer update done by `EventBus.emit` before
dispatch: push, then cut back to the most recent `limit` entries. -/
def pushHistory (hist : List (String × ℕ)) (ev : String × ℕ) (limit : ℕ) :
    List (String × ℕ) :=
  let h := hist ++ [ev]
  if limit < h.length then h.drop (h.length - limit) else h

/-- Emitting a list of events in order, collecting each dispatch result
(the subscriber list is never mutated by `emit`). -/
def busEmitAll (subs : List Subscriber) (events : List (String × ℕ)) :
    List (Except String (List Delivery)) :=
  events.map (fun ev => busEmit subs ev.1 ev.2)

/-- The payload sequence a given subscriber id received across a run of
dispatch results. -/
def payloadsDeliveredTo : List (Except String (List Delivery)) → ℕ → List ℕ
  | [], _ => []
  | r :: rs, i =>
    (match r with
     | .ok ds => (ds.filter (fun d => d.subscriberId == i)).map (fun d => d.payload)
     | .error _ => []) ++ payloadsDeliveredTo rs i

/-! ## Provider manager (`provider-manager.js`) -/

/-- One entry of the manager's `providers` map: the `(type, name)` pair that
forms its key, the provider instance (opaque id), and the mutable
`isDefault` / `isHealthy` / `lastHealthCheck` cells. -/
structure PEntry where
  ptype : String
  pname : String
  instId : ℕ
  isDefault : Bool
  isHealthy : Bool
  lastCheck : Option ℕ
deriving DecidableEq

/-- The map key `` `${type}:${name}` ``. -/
def mkKey (t n : String) : String := t ++ ":" ++ n

/-- The key under which an entry is stored. -/
def keyOf (e : PEntry) : String := mkKey e.ptype e.pname

/-- JS `s.startsWith(p)` on the character sequences of the strings. -/
def strStartsWith (s p : String) : Bool := p.data.isPrefixOf s.data

/-- The manager's type test `key.startsWith(type + ':')`. -/
def matchesType (t : String) (e : PEntry) : Bool :=
  strStartsWith (keyOf e) (t ++ ":")

/-- JS truthiness of the optional `name` argument of `get`
(`name = null` default; the empty string is falsy). -/
def jsTruthyName (name : Option String) : Bool :=
  match name with
  | none => false
  | some s => s != ""

/-- `ProviderManager.get(type, name = null)`: with a truthy name, a direct
map lookup of `` `${type}:${name}` ``; otherwise the first entry of the type
marked default, else the first entry of the type, else nothing.  The
iteration order of a JS `Map` is insertion order, modelled by the list
order. -/
def pmGet (s : List PEntry) (t : String) (name : Option String) : Option ℕ :=
  if jsTruthyName name then
    (s.find? (fun e => keyOf e == mkKey t (name.getD ""))).map (fun e => e.instId)
  else
    match s.find? (fun e => matchesType t e && e.isDefault) with
    | some e => some e.instId
    | none => (s.find? (fun e => matchesType t e)).map (fun e => e.instId)

/-- The loop body of `setDefault` on one entry: an entry whose key starts
with `` `${type}:` `` gets `isDefault := (key === `${type}:${name}`)`;
other entries are untouched. -/
def updEntry (t n : String) (e : PEntry) : PEntry :=
  if matchesType t e then { e with isDefault := keyOf e == mkKey t n } else e

/-- The in-memory part of `ProviderManager.setDefault(type, name)`: the
loop over `this.providers`.  (The two database updates mirror the same
change and are keyed on the same values; they do not affect the in-memory
map that `get` reads.) -/
def setDefault (s : List PEntry) (t n : String) : List PEntry :=
  s.map (updEntry t n)

/-- A sequence of `setDefault` calls, applied in order. -/
def applyCalls (s : List PEntry) (calls : List (String × String)) : List PEntry :=
  calls.foldl (fun st c => setDefault st c.1 c.2) s

/-- `get` as the async caller observes it: the method body contains no
`throw` and no awaited rejection, so it always resolves, with the value of
`pmGet`. -/
def pmGetE (s : List PEntry) (t : String) (name : Option String) :
    Except String (Option ℕ) := .ok (pmGet s t name)

/-- `setDefault` as the async caller observes it: for any `type`/`name`,
known or not, the body runs two unconditional `UPDATE`s and the in-memory
loop and resolves; no lookup validation exists (database failures are
independent of the arguments and modelled as absent here). -/
def setDefaultE (s : List PEntry) (t n : String) :
    Except String (List PEntry) := .ok (setDefault s t n)

/-- At most one entry whose key matches the given type is marked default. -/
def AtMostOneDefault (s : List PEntry) (t : String) : Prop :=
  s.countP (fun e => matchesType t e && e.isDefault) ≤ 1

/-- The string has no colon among its characters.  Every `(type, name)`
pair that `initializeProvider` can ever store comes from the fixed
`ProviderRegistry` tables (`getProvider` throws on anything else, and the
error is caught before the entry is inserted), and none of those types or
names contains a colon. -/
abbrev NoColon (x : String) : Prop := ':' ∉ x.data

/-- Well-formedness of the manager map: keys are distinct (it is a JS
`Map`) and every stored type and name is colon-free (see `NoColon`). -/
abbrev WFPM (s : List PEntry) : Prop :=
  (s.map keyOf).Nodup ∧ ∀ e ∈ s, NoColon e.ptype ∧ NoColon e.pname

/-! ## Health monitor (`provider-manager.js`, `runHealthChecks`) -/

/-- The manager map entry fields touched by a health round. -/
structure HEntry where
  key : String
  isHealthy : Bool
  lastCheck : Option ℕ
deriving DecidableEq

/-- What one provider's iteration of the health loop encounters:
the probe resolves with a boolean and the subsequent `updateHealth`
database write succeeds or throws, or the probe itself throws. -/
inductive RoundOutcome where
  | probed (healthy : Bool) (dbOk : Bool)
  | probeThrew
deriving DecidableEq

/-- The probe result alone (ignoring the persistence write); `none` when
the probe threw. -/
def probeView (o : RoundOutcome) : Option Bool :=
  match o with
  | .probed h _ => some h
  | .probeThrew => none

/-- The probe did not come back healthy: it resolved `false` or threw. -/
def ProbeFailed (o : RoundOutcome) : Prop :=
  match o with
  | .probed h _ => h = false
  | .probeThrew => True

/-- One iteration of the `runHealthChecks` loop on one entry.  On a
resolved probe the code sets `isHealthy` and the timestamp and then awaits
the database write; if that write throws, the iteration's `catch` sets
`isHealthy = false` and refreshes the timestamp.  If the probe throws, the
`catch` does the same. -/
def healthStep (e : HEntry) (o : RoundOutcome) (now : ℕ) : HEntry :=
  match o with
  | .probed h dbOk =>
    if dbOk then { e with isHealthy := h, lastCheck := some now }
    else { e with isHealthy := false, lastCheck := some now }
  | .probeThrew => { e with isHealthy := false, lastCheck := some now }

/-- The `runHealthChecks` loop from position `i`: each entry is updated by
its own iteration only, and every iteration's body is inside `try`/`catch`,
so the loop always runs to completion. -/
def runHealthChecksFrom (entries : List HEntry) (outcomes : ℕ → RoundOutcome)
    (now i : ℕ) : List HEntry :=
  match entries with
  | [] => []
  | e :: rest => healthStep e (outcomes i) now :: runHealthChecksFrom rest outcomes now (i + 1)

/-- `ProviderManager.runHealthChecks`, with the outcome of each provider's
probe-and-persist supplied by index. -/
def runHealthChecks (entries : List HEntry) (outcomes : ℕ → RoundOutcome)
    (now : ℕ) : List HEntry :=
  runHealthChecksFrom entries outcomes now 0

/-- `runHealthChecks` as its (fire-and-forget) caller observes it: every
iteration is wrapped in `try`/`catch`, so the round never rejects. -/
def runHealthChecksE (entries : List HEntry) (outcomes : ℕ → RoundOutcome)
    (now : ℕ) : Except String (List HEntry) :=
  .ok (runHealthChecks entries outcomes now)

/-! ## Helper lemmas -/

lemma validateIntent_mem (x : Option String) : validateIntent x ∈ validIntents := by
  unfold validateIntent
  cases x with
  | none => decide
  | some s =>
    by_cases h : s ∈ validIntents
    · simp only [if_pos h]; exact h
    · simp only [if_neg h]; decide

lemma validatePersona_mem (x : Option String) : validatePersona x ∈ validPersonas := by
  unfold validatePersona
  cases x with
  | none => decide
  | some s =>
    by_cases h : s ∈ validPersonas
    · simp only [if_pos h]; exact h
    · simp only [if_neg h]; decide

lemma validateVertical_mem (x : Option String) : validateVertical x ∈ validVerticals := by
  unfold validateVertical
  cases x with
  | none => decide
  | some s =>
    by_cases h : s ∈ validVerticals
    · simp only [if_pos h]; exact h
    · simp only [if_neg h]; decide

lemma classifyLead_bounds (outcome : Except String RawClass) (opts : ClassifyOptions) :
    (classifyLead outcome opts).intent ∈ validIntents
    ∧ (classifyLead outcome opts).persona ∈ validPersonas
    ∧ (classifyLead outcome opts).vertical ∈ validVerticals
    ∧ 1 ≤ (classifyLead outcome opts).urgency
    ∧ (classifyLead outcome opts).urgency ≤ 10
    ∧ 1 ≤ (classifyLead outcome opts).score
    ∧ (classifyLead outcome opts).score ≤ 100
    ∧ 0 ≤ (classifyLead outcome opts).conversionProbability
    ∧ (classifyLead outcome opts).conversionProbability ≤ 1 := by
  cases outcome with
  | error msg =>
    exact ⟨show "other" ∈ validIntents by decide,
      show "professional" ∈ validPersonas by decide,
      show "other" ∈ validVerticals by decide,
      show (1 : ℤ) ≤ 5 by decide, show (5 : ℤ) ≤ 10 by decide,
      show (1 : ℤ) ≤ 30 by decide, show (30 : ℤ) ≤ 100 by decide,
      show (0 : ℚ) ≤ ratThreeTenths by decide,
      show ratThreeTenths ≤ 1 by decide⟩
  | ok raw =>
    refine ⟨validateIntent_mem _, validatePersona_mem _, validateVertical_mem _,
      ?_, ?_, ?_, ?_, ?_, ?_⟩
    · exact le_min (by decide) (le_max_left 1 (jsOrInt raw.urgency 5))
    · exact min_le_left 10 _
    · exact le_min (by decide) (le_max_left 1 (jsOrInt raw.score 50))
    · exact min_le_left 100 _
    · exact le_min (by decide) (le_max_left 0 (jsOrRat raw.conversionProbability ratHalf))
    · exact min_le_left 1 _

lemma storedOf_bounds (c : Classification)
    (h1 : c.intent ∈ validIntents) (h2 : c.persona ∈ validPersonas)
    (h3 : c.vertical ∈ validVerticals)
    (h4 : 1 ≤ c.urgency) (h5 : c.urgency ≤ 10)
    (h6 : 1 ≤ c.score) (h7 : c.score ≤ 100)
    (h8 : 0 ≤ c.conversionProbability) (h9 : c.conversionProbability ≤ 1) :
    (storedOf c).intent ∈ validIntents
    ∧ (storedOf c).persona ∈ validPersonas
    ∧ (storedOf c).vertical ∈ validVerticals
    ∧ 1 ≤ (storedOf c).urgency ∧ (storedOf c).urgency ≤ 10
    ∧ 1 ≤ (storedOf c).score ∧ (storedOf c).score ≤ 100
    ∧ 0 ≤ (storedOf c).conversionProbability
    ∧ (storedOf c).conversionProbability ≤ 1 := by
  refine ⟨h1, h2, h3, h4, h5, ?_, ?_, ?_, ?_⟩ <;> unfold storedOf <;> dsimp only
  · split_ifs with h
    · decide
    · exact h6
  · split_ifs with h
    · decide
    · exact h7
  · split_ifs with h
    · decide
    · exact h8
  · split_ifs with h
    · decide
    · exact h9

/-! ## Claim C1 -/

/-- C1 (amended): for every execution of the ingest handler that persists a
lead, every stored classification field other than the estimated value is
in its documented domain — urgency an integer in [1,10], lead score an
integer in [1,100], conversion probability in [0,1], intent, persona and
vertical in their closed enumerations.  (The estimated value is the one
field the code does not clamp; see the counterexample.) -/
theorem c1_stored_fields_in_domain :
    ∀ (env : IngestEnv) (st : StoredFields), (ingest env).stored = some st →
      st.intent ∈ validIntents ∧ st.persona ∈ validPersonas
      ∧ st.vertical ∈ validVerticals
      ∧ 1 ≤ st.urgency ∧ st.urgency ≤ 10
      ∧ 1 ≤ st.score ∧ st.score ≤ 100
      ∧ 0 ≤ st.conversionProbability ∧ st.conversionProbability ≤ 1 := by
  intro env st h
  have hst : st = storedOf (classifyLead env.classifierOutcome ingestOpts) := by
    unfold ingest at h
    cases hpre : (!env.hasSourceId && extractIdentifierThrows env.body) with
    | true => simp [hpre] at h
    | false =>
      cases hbr : bodyRejected env.body with
      | true => simp [hpre, hbr] at h
      | false =>
        cases hio : env.insertOutcome with
        | error m => simp [hpre, hbr, hio] at h
        | ok lid =>
          cases hau : env.auditOutcome with
          | error m => simp [hpre, hbr, hio, hau] at h; exact h.symm
          | ok u => simp [hpre, hbr, hio, hau] at h; exact h.symm
  subst hst
  obtain ⟨b1, b2, b3, b4, b5, b6, b7, b8, b9⟩ :=
    classifyLead_bounds env.classifierOutcome ingestOpts
  exact storedOf_bounds _ b1 b2 b3 b4 b5 b6 b7 b8 b9

/-- The classifier response used in the C1 counterexample: every field is
present and valid except that the estimated value is negative. -/
def rawNeg : RawClass :=
  { intent := some "buying", urgency := some 7, estimatedValue := some (-1)
    persona := some "shark", vertical := some "law", language := some "en"
    score := some 80, conversionProbability := some 1
    summary := some "s", keyPhrases := some [] }

/-- The ingest execution used in the C1 counterexample. -/
def envNeg : IngestEnv :=
  { rid := "r1", body := some (.obj [("text", .str "sue them")])
    classifierOutcome := .ok rawNeg, insertOutcome := .ok 1, auditOutcome := .ok () }

/-- C1 counterexample: a payload is accepted, the external classifier
returns estimated value −1, and the handler stores −1 raw — the stored
estimated value is negative, so it is not in its documented domain and the
out-of-domain value was not replaced by a default. -/
theorem c1_counterexample :
    (ingest envNeg).stored = some (storedOf (classifyLeadOk rawNeg ingestOpts))
    ∧ (storedOf (classifyLeadOk rawNeg ingestOpts)).estimatedValue = -1
    ∧ ¬ 0 ≤ (storedOf (classifyLeadOk rawNeg ingestOpts)).estimatedValue := by
  refine ⟨by decide, by decide, by decide⟩

/-- C1 witness: the domain theorem applied to the concrete execution
`envNeg`. -/
theorem c1_stored_fields_in_domain_witness :
    (ingest envNeg).stored = some (storedOf (classifyLeadOk rawNeg ingestOpts))
    ∧ ((storedOf (classifyLeadOk rawNeg ingestOpts)).intent ∈ validIntents
      ∧ (storedOf (classifyLeadOk rawNeg ingestOpts)).persona ∈ validPersonas
      ∧ (storedOf (classifyLeadOk rawNeg ingestOpts)).vertical ∈ validVerticals
      ∧ 1 ≤ (storedOf (classifyLeadOk rawNeg ingestOpts)).urgency
      ∧ (storedOf (classifyLeadOk rawNeg ingestOpts)).urgency ≤ 10
      ∧ 1 ≤ (storedOf (classifyLeadOk rawNeg ingestOpts)).score
      ∧ (storedOf (classifyLeadOk rawNeg ingestOpts)).score ≤ 100
      ∧ 0 ≤ (storedOf (classifyLeadOk rawNeg ingestOpts)).conversionProbability
      ∧ (storedOf (classifyLeadOk rawNeg ingestOpts)).conversionProbability ≤ 1) :=
  ⟨by decide, c1_stored_fields_in_domain envNeg _ (by decide)⟩

/-! ## Claim C2 -/

/-- C2: `calculatePriority` is a pure function of (urgency, estimated
value, intent); it equals the documented bonus table clamped at 10, always
lies in [5,10] (hence is never negative and never above 10), and identical
inputs give identical outputs. -/
theorem c2_priority_formula_and_bounds :
    ∀ c : Classification,
      calculatePriority c
        = min (5 + urgencyBonus c.urgency + valueBonus c.estimatedValue
                + intentBonus c.intent) 10
      ∧ 5 ≤ calculatePriority c
      ∧ calculatePriority c ≤ 10
      ∧ ∀ c₂ : Classification, c = c₂ → calculatePriority c = calculatePriority c₂ := by
  intro c
  have heq : calculatePriority c
      = min (5 + urgencyBonus c.urgency + valueBonus c.estimatedValue
              + intentBonus c.intent) 10 := by
    unfold calculatePriority urgencyBonus valueBonus intentBonus
    split_ifs <;> first | rfl | omega | simp_all
  have hub : 0 ≤ urgencyBonus c.urgency := by unfold urgencyBonus; split_ifs <;> omega
  have hvb : 0 ≤ valueBonus c.estimatedValue := by unfold valueBonus; split_ifs <;> omega
  have hib : 0 ≤ intentBonus c.intent := by unfold intentBonus; split_ifs <;> omega
  refine ⟨heq, ?_, ?_, fun c₂ h => h ▸ rfl⟩
  · rw [heq]; exact le_min (by omega) (by omega)
  · rw [heq]; exact min_le_right _ 10

/-- C2 witness: the formula and bounds at the default classification. -/
theorem c2_priority_formula_and_bounds_witness :
    calculatePriority (classifyDefault "en")
      = min (5 + urgencyBonus 5 + valueBonus 0 + intentBonus "other") 10
    ∧ 5 ≤ calculatePriority (classifyDefault "en")
    ∧ calculatePriority (classifyDefault "en") ≤ 10 :=
  ⟨(c2_priority_formula_and_bounds (classifyDefault "en")).1,
   (c2_priority_formula_and_bounds (classifyDefault "en")).2.1,
   (c2_priority_formula_and_bounds (classifyDefault "en")).2.2.1⟩

/-! ## Claim C3 -/

/-- C3: whenever the external classification call fails (any error
outcome), `classifyLead` completes normally and returns exactly the
documented low-confidence default: intent "other", urgency 5, estimated
value 0, persona "professional", vertical "other", language equal to the
preferred language, score 30, conversion probability 0.3, and the
manual-review summary. -/
theorem c3_failure_returns_exact_default :
    ∀ (msg : String) (opts : ClassifyOptions),
      classifyLead (.error msg) opts =
        { intent := "other", urgency := 5, estimatedValue := 0
          persona := "professional", vertical := "other"
          language := opts.preferredLanguage, score := 30
          conversionProbability := ratThreeTenths
          summary := "Classification failed - manual review needed"
          keyPhrases := [] } :=
  fun _ _ => rfl

/-! ## Claim C5 -/

lemma extractThrows_rejected (b : Option Json) (h : extractIdentifierThrows b = true) :
    bodyRejected b = true := by
  cases b with
  | none => rfl
  | some j =>
    cases j with
    | null => rfl
    | obj fields => simp [extractIdentifierThrows] at h
    | arr elems => simp [extractIdentifierThrows] at h
    | str s => simp [extractIdentifierThrows] at h
    | num q => simp [extractIdentifierThrows] at h
    | bool x => simp [extractIdentifierThrows] at h

lemma pre_false_of_not_rejected (env : IngestEnv) (h : bodyRejected env.body = false) :
    (!env.hasSourceId && extractIdentifierThrows env.body) = false := by
  cases het : extractIdentifierThrows env.body with
  | false => simp [het]
  | true =>
    rw [extractThrows_rejected env.body het] at h
    exact absurd h (by decide)

/-- C5: if the ledger insert fails once ingestion is under way, the request
answers 500 with the correlation id, nothing is stored and no event is
published; and in every execution, a `lead:new` event is published only
for a lead id that the insert successfully returned. -/
theorem c5_event_only_after_insert :
    ∀ env : IngestEnv,
      (bodyRejected env.body = false → ∀ msg, env.insertOutcome = .error msg →
        (ingest env).status = 500 ∧ (ingest env).success = false
        ∧ (ingest env).ridEchoed = env.rid ∧ (ingest env).stored = none
        ∧ (ingest env).events = [])
      ∧ (∀ ev, ev ∈ (ingest env).events → ev.name = "lead:new" →
          ∃ lid, env.insertOutcome = .ok lid ∧ ev.leadId = lid
            ∧ (ingest env).leadId = some lid) := by
  intro env
  constructor
  · intro hbr msg hio
    have hpre := pre_false_of_not_rejected env hbr
    simp [ingest, hpre, hbr, hio]
  · intro ev hmem hname
    cases hpre : (!env.hasSourceId && extractIdentifierThrows env.body) with
    | true => simp [ingest, hpre] at hmem
    | false =>
      cases hbr : bodyRejected env.body with
      | true => simp [ingest, hpre, hbr] at hmem
      | false =>
        cases hio : env.insertOutcome with
        | error m => simp [ingest, hpre, hbr, hio] at hmem
        | ok lid =>
          cases hau : env.auditOutcome with
          | error m => simp [ingest, hpre, hbr, hio, hau] at hmem
          | ok u =>
            simp only [ingest, hpre, hbr, hio, hau, Bool.false_eq_true, if_false,
              List.mem_singleton] at hmem
            subst hmem
            exact ⟨lid, rfl, rfl, by simp [ingest, hpre, hbr, hio, hau]⟩

/-- The ingest execution used in the C5 witness: a valid payload whose
ledger insert fails. -/
def envC5 : IngestEnv :=
  { rid := "r2", body := some (.obj [("a", .null)])
    classifierOutcome := .error "timeout", insertOutcome := .error "db down"
    auditOutcome := .ok () }

/-- C5 witness: the failed-insert conclusions at the concrete execution
`envC5`. -/
theorem c5_event_only_after_insert_witness :
    (ingest envC5).status = 500 ∧ (ingest envC5).success = false
    ∧ (ingest envC5).ridEchoed = "r2" ∧ (ingest envC5).stored = none
    ∧ (ingest envC5).events = [] :=
  (c5_event_only_after_insert envC5).1 (by decide) "db down" rfl

/-! ## Claim C6 -/

/-- The claim's hypothesis, read over JSON shapes: the body is empty or not
a JSON object. -/
def EmptyOrNonObjectBody (b : Option Json) : Prop :=
  match b with
  | some (.obj fields) => fields = []
  | _ => True

/-- C6 (amended): among the bodies the strict JSON body parser can deliver
to the handler (JSON objects and arrays; an absent or non-JSON request
body arrives as an empty object), every empty one — an empty object or an
empty array — is rejected with a 400 "Empty payload" client error carrying
the correlation id, with no lead identity returned and neither
classification nor storage reached.  A body that is missing or JSON `null`
at the handler, with no source-id header, instead makes the pre-validation
identifier extraction throw, so the request fails with the 500 "Ingestion
failed" server error (likewise without reaching classification, storage or
emission).  (A non-empty array, though not an object, is accepted — see
the counterexample.) -/
theorem c6_empty_payload_rejected :
    ∀ env : IngestEnv,
      ((env.body = some (.obj []) ∨ env.body = some (.arr [])) →
        ingest env =
          { status := 400, success := false, errorMsg := some "Empty payload"
            ridEchoed := env.rid, leadId := none, classifierCalled := false
            insertAttempted := false, stored := none, events := [] })
      ∧ (env.hasSourceId = false → (env.body = none ∨ env.body = some .null) →
        ingest env =
          { status := 500, success := false, errorMsg := some "Ingestion failed"
            ridEchoed := env.rid, leadId := none, classifierCalled := false
            insertAttempted := false, stored := none, events := [] }) := by
  intro env
  constructor
  · intro h
    rcases h with h | h <;>
      simp [ingest, h, extractIdentifierThrows, bodyRejected, jsFalsyBody,
        objectKeysLen]
  · intro hsid h
    rcases h with h | h <;> simp [ingest, h, hsid, extractIdentifierThrows]

/-- Ingest execution with a non-empty array body (C6 counterexample). -/
def envArr : IngestEnv :=
  { rid := "r4", body := some (.arr [.num 1])
    classifierOutcome := .error "x", insertOutcome := .ok 3, auditOutcome := .ok () }

/-- Ingest execution with a missing body and no source-id header (C6
counterexample). -/
def envNull : IngestEnv :=
  { rid := "r6", body := none, hasSourceId := false
    classifierOutcome := .ok {}, insertOutcome := .ok 4, auditOutcome := .ok () }

/-- C6 counterexample: a non-empty array body is "not an object", yet it
is accepted, classified, stored and answered 202 with a lead id; and a
missing body — certainly empty — is answered with a 500 server error
("Ingestion failed") rather than the claimed empty-payload client error,
because the pre-validation identifier extraction throws first. -/
theorem c6_counterexample :
    EmptyOrNonObjectBody envArr.body
    ∧ (ingest envArr).status = 202 ∧ (ingest envArr).classifierCalled = true
    ∧ (ingest envArr).leadId = some 3
    ∧ EmptyOrNonObjectBody envNull.body
    ∧ (ingest envNull).status = 500
    ∧ (ingest envNull).errorMsg = some "Ingestion failed" := by
  refine ⟨trivial, by decide, by decide, by decide, trivial, by decide, by decide⟩

/-- The empty-object ingest execution used in the C6 witness. -/
def envEmpty : IngestEnv :=
  { rid := "r5", body := some (.obj [])
    classifierOutcome := .ok {}, insertOutcome := .ok 9, auditOutcome := .ok () }

/-- C6 witness: the theorem applied to the empty-object execution
`envEmpty` (400 branch) and to the missing-body execution `envNull`
(500 branch). -/
theorem c6_empty_payload_rejected_witness :
    ingest envEmpty =
      { status := 400, success := false, errorMsg := some "Empty payload"
        ridEchoed := "r5", leadId := none, classifierCalled := false
        insertAttempted := false, stored := none, events := [] }
    ∧ ingest envNull =
      { status := 500, success := false, errorMsg := some "Ingestion failed"
        ridEchoed := "r6", leadId := none, classifierCalled := false
        insertAttempted := false, stored := none, events := [] } :=
  ⟨(c6_empty_payload_rejected envEmpty).1 (Or.inl rfl),
   (c6_empty_payload_rejected envNull).2 rfl (Or.inl rfl)⟩

/-! ## Claim C7 -/

lemma rawDispatch_wrapped (l : List Subscriber) (p : ℕ) :
    rawDispatch (l.map fun s => (s.id, wrapHandler s)) p
      = .ok (l.map fun s => ⟨s.id, p, !s.handlerThrows p⟩) := by
  induction l with
  | nil => rfl
  | cons s rest ih => simp [rawDispatch, wrapHandler, ih, Except.map]

lemma busEmit_eq (subs : List Subscriber) (name : String) (p : ℕ) :
    busEmit subs name p
      = .ok ((subs.filter (fun s => s.eventName == name)).map
          (fun s => ⟨s.id, p, !s.handlerThrows p⟩)) := by
  unfold busEmit listenersFor
  exact rawDispatch_wrapped _ p

lemma deliveries_filter_absent (l : List Subscriber) (p i : ℕ)
    (h : ∀ s ∈ l, s.id ≠ i) :
    ((l.map (fun s => (⟨s.id, p, !s.handlerThrows p⟩ : Delivery))).filter
        (fun d => d.subscriberId == i)).map (fun d => d.payload) = [] := by
  induction l with
  | nil => rfl
  | cons x rest ih =>
    have hx : (x.id == i) = false := by
      simp [h x (List.mem_cons_self x rest)]
    simp only [List.map_cons, List.filter_cons, hx]
    exact ih (fun s hs => h s (List.mem_cons_of_mem x hs))

lemma per_event_delivery (subs : List Subscriber) (s : Subscriber)
    (hs : s ∈ subs) (hnd : (subs.map (fun x => x.id)).Nodup)
    (name : String) (p : ℕ) :
    (((subs.filter (fun x => x.eventName == name)).map
        (fun x => (⟨x.id, p, !x.handlerThrows p⟩ : Delivery))).filter
          (fun d => d.subscriberId == s.id)).map (fun d => d.payload)
      = if s.eventName == name then [p] else [] := by
  induction subs with
  | nil => cases hs
  | cons x rest ih =>
    simp only [List.map_cons] at hnd
    have hnd' : (rest.map (fun y => y.id)).Nodup := (List.nodup_cons.mp hnd).2
    have hxr : x.id ∉ rest.map (fun y => y.id) := (List.nodup_cons.mp hnd).1
    rcases List.mem_cons.mp hs with rfl | h
    · have habs : ∀ y ∈ rest.filter (fun z => z.eventName == name), y.id ≠ s.id := by
        intro y hy hcon
        exact hxr (hcon ▸ List.mem_map_of_mem _ (List.mem_of_mem_filter hy))
      cases hxn : s.eventName == name with
      | true =>
        simp only [List.filter_cons, hxn, if_true, List.map_cons,
          beq_self_eq_true]
        rw [deliveries_filter_absent _ p s.id habs]
      | false =>
        simp only [List.filter_cons, hxn, if_false]
        exact deliveries_filter_absent _ p s.id habs
    · have hxid : x.id ≠ s.id := by
        intro hcon
        exact hxr (hcon ▸ List.mem_map_of_mem _ h)
      have hxid' : (x.id == s.id) = false := by simp [hxid]
      cases hxn : x.eventName == name with
      | true =>
        simp only [List.filter_cons, hxn, if_true, List.map_cons, hxid',
          Bool.false_eq_true, if_false]
        exact ih h hnd'
      | false =>
        simp only [List.filter_cons, hxn, if_false]
        exact ih h hnd'

/-- C7: dispatch through subscribers registered with `subscribe` is total
(`Except.ok`, never a propagated handler exception): every current
subscriber of the emitted name is invoked in registration order with the
payload, and a handler that throws is recorded as caught
(`handlerCompleted = false`, the logged case) without removing any later
subscriber's delivery; consequently, across any run of emissions, every
subscriber receives exactly the payloads of the events bearing its name,
in emission order, regardless of any other handler throwing. -/
theorem c7_throwing_handler_isolated :
    (∀ (subs : List Subscriber) (name : String) (p : ℕ),
        busEmit subs name p
          = .ok ((subs.filter (fun s => s.eventName == name)).map
              (fun s => ⟨s.id, p, !s.handlerThrows p⟩)))
    ∧ ∀ (subs : List Subscriber) (events : List (String × ℕ)) (s : Subscriber),
        s ∈ subs → (subs.map (fun x => x.id)).Nodup →
        payloadsDeliveredTo (busEmitAll subs events) s.id
          = (events.filter (fun ev => ev.1 == s.eventName)).map (fun ev => ev.2) := by
  refine ⟨busEmit_eq, ?_⟩
  intro subs events s hs hnd
  induction events with
  | nil => rfl
  | cons ev evs ih =>
    simp only [busEmitAll, List.map_cons] at ih ⊢
    rw [busEmit_eq subs ev.1 ev.2]
    simp only [payloadsDeliveredTo]
    rw [per_event_delivery subs s hs hnd ev.1 ev.2, ih]
    by_cases h : ev.1 = s.eventName
    · simp [List.filter_cons, h]
    · have h1 : (s.eventName == ev.1) = false := by
        simp only [beq_eq_false_iff_ne, ne_eq]
        intro hcon
        exact h hcon.symm
      have h2 : (ev.1 == s.eventName) = false := by simp [h]
      simp [List.filter_cons, h1, h2]

/-- The throwing subscriber of the C7 witness. -/
def subThrow : Subscriber := ⟨1, "lead:new", fun _ => true⟩

/-- The well-behaved subscriber of the C7 witness. -/
def subOk : Subscriber := ⟨2, "lead:new", fun _ => false⟩

/-- The two-subscriber bus of the C7 witness. -/
def subsEx : List Subscriber := [subThrow, subOk]

/-- The emission run of the C7 witness. -/
def eventsEx : List (String × ℕ) := [("lead:new", 10), ("other", 99), ("lead:new", 11)]

/-- C7 witness: with a throwing subscriber registered first for the same
name, the second subscriber still receives both `lead:new` payloads in
emission order. -/
theorem c7_throwing_handler_isolated_witness :
    payloadsDeliveredTo (busEmitAll subsEx eventsEx) 2 = [10, 11] :=
  (c7_throwing_handler_isolated.2 subsEx eventsEx subOk
      (List.mem_cons_of_mem subThrow (List.mem_cons_self subOk []))
      (by decide)).trans (by decide)

/-! ## Claim C8 -/

lemma runFrom_getElem? (entries : List HEntry) (outcomes : ℕ → RoundOutcome)
    (now : ℕ) : ∀ i j : ℕ,
    (runHealthChecksFrom entries outcomes now i)[j]?
      = (entries[j]?).map (fun e => healthStep e (outcomes (i + j)) now) := by
  induction entries with
  | nil => intro i j; simp [runHealthChecksFrom]
  | cons e rest ih =>
    intro i j
    cases j with
    | zero => simp [runHealthChecksFrom]
    | succ k =>
      simp only [runHealthChecksFrom, List.getElem?_cons_succ]
      have harith : i + (k + 1) = (i + 1) + k := by omega
      rw [harith]
      exact ih (i + 1) k

lemma healthStep_failed (e : HEntry) (o : RoundOutcome) (now : ℕ)
    (h : ProbeFailed o) :
    (healthStep e o now).isHealthy = false
    ∧ (healthStep e o now).lastCheck = some now := by
  cases o with
  | probed hb db =>
    have : hb = false := h
    subst this
    cases db <;> exact ⟨rfl, rfl⟩
  | probeThrew => exact ⟨rfl, rfl⟩

/-- C8 (amended): a health round never rejects; each entry's recorded state
is determined solely by that entry's own probe-and-persist outcome (so no
provider's failure affects any other provider's recorded state); and a
provider whose probe resolves unhealthy or throws is recorded unhealthy
with the round's timestamp.  (The recorded state is not a function of the
probe result alone: a failing persistence write also forces "unhealthy" —
see the counterexample.) -/
theorem c8_probe_failure_isolated :
    ∀ (entries : List HEntry) (outcomes : ℕ → RoundOutcome) (now : ℕ),
      runHealthChecksE entries outcomes now = .ok (runHealthChecks entries outcomes now)
      ∧ (∀ j e, entries[j]? = some e →
          (runHealthChecks entries outcomes now)[j]?
            = some (healthStep e (outcomes j) now))
      ∧ (∀ j e, entries[j]? = some e → ProbeFailed (outcomes j) →
          (runHealthChecks entries outcomes now)[j]?
              = some (healthStep e (outcomes j) now)
            ∧ (healthStep e (outcomes j) now).isHealthy = false
            ∧ (healthStep e (outcomes j) now).lastCheck = some now) := by
  intro entries outcomes now
  have hmain : ∀ j e, entries[j]? = some e →
      (runHealthChecks entries outcomes now)[j]?
        = some (healthStep e (outcomes j) now) := by
    intro j e he
    unfold runHealthChecks
    rw [runFrom_getElem? entries outcomes now 0 j, he]
    simp
  refine ⟨rfl, hmain, ?_⟩
  intro j e he hf
  obtain ⟨h1, h2⟩ := healthStep_failed e (outcomes j) now hf
  exact ⟨hmain j e he, h1, h2⟩

/-- First monitored entry of the C8 examples. -/
def hE0 : HEntry := ⟨"voice:vapi", true, none⟩

/-- Second monitored entry of the C8 examples. -/
def hE1 : HEntry := ⟨"email:sendgrid", true, none⟩

/-- Round outcomes of the C8 counterexample, variant A: provider 0's probe
throws; provider 1's probe resolves healthy and its persistence write
succeeds. -/
def oA : ℕ → RoundOutcome := fun i => if i = 0 then .probeThrew else .probed true true

/-- Round outcomes of the C8 counterexample, variant B: identical probe
results, but provider 1's persistence write throws. -/
def oB : ℕ → RoundOutcome := fun i => if i = 0 then .probeThrew else .probed true false

/-- C8 counterexample: two rounds with identical probe results for every
provider (and the same failing provider 0) record different health states
for provider 1 — its recorded state is therefore not determined solely by
its own probe result; the dropped persistence write forces "unhealthy"
although the probe said healthy. -/
theorem c8_counterexample :
    probeView (oA 0) = probeView (oB 0)
    ∧ probeView (oA 1) = probeView (oB 1)
    ∧ ProbeFailed (oA 0)
    ∧ (runHealthChecks [hE0, hE1] oA 5).map (fun e => e.isHealthy) = [false, true]
    ∧ (runHealthChecks [hE0, hE1] oB 5).map (fun e => e.isHealthy) = [false, false] := by
  refine ⟨by decide, by decide, trivial, by decide, by decide⟩

/-- C8 witness: the round theorem applied to the concrete failing round
`oA` — provider 0's probe threw, it is recorded unhealthy with the round
timestamp, and provider 1's entry is the image of its own outcome only. -/
theorem c8_probe_failure_isolated_witness :
    ProbeFailed (oA 0)
    ∧ (runHealthChecks [hE0, hE1] oA 5)[0]?
        = some (healthStep hE0 (oA 0) 5)
    ∧ (healthStep hE0 (oA 0) 5).isHealthy = false
    ∧ (healthStep hE0 (oA 0) 5).lastCheck = some 5
    ∧ (runHealthChecks [hE0, hE1] oA 5)[1]?
        = some (healthStep hE1 (oA 1) 5) :=
  ⟨trivial,
   ((c8_probe_failure_isolated [hE0, hE1] oA 5).2.2 0 hE0 rfl trivial).1,
   ((c8_probe_failure_isolated [hE0, hE1] oA 5).2.2 0 hE0 rfl trivial).2.1,
   ((c8_probe_failure_isolated [hE0, hE1] oA 5).2.2 0 hE0 rfl trivial).2.2,
   (c8_probe_failure_isolated [hE0, hE1] oA 5).2.1 1 hE1 rfl⟩

/-! ## Provider key lemmas -/

lemma isPrefixOf_iff_exists (l₁ l₂ : List Char) :
    l₁.isPrefixOf l₂ = true ↔ ∃ u, l₁ ++ u = l₂ := by
  induction l₁ generalizing l₂ with
  | nil =>
    simp [List.isPrefixOf]
  | cons a as ih =>
    cases l₂ with
    | nil => simp [List.isPrefixOf]
    | cons b bs =>
      simp only [List.isPrefixOf, Bool.and_eq_true, beq_iff_eq, ih,
        List.cons_append, List.cons.injEq]
      constructor
      · rintro ⟨rfl, u, rfl⟩
        exact ⟨u, rfl, rfl⟩
      · rintro ⟨u, rfl, rfl⟩
        exact ⟨rfl, u, rfl⟩

lemma append_colon_inj (a : List Char) (u : List Char) :
    ∀ (b v : List Char), ':' ∉ a → ':' ∉ b →
      a ++ ':' :: u = b ++ ':' :: v → a = b := by
  induction a with
  | nil =>
    intro b v _ hb h
    cases b with
    | nil => rfl
    | cons y ys =>
      simp only [List.nil_append, List.cons_append, List.cons.injEq] at h
      exact absurd (h.1 ▸ List.mem_cons_self y ys) hb
  | cons x xs ih =>
    intro b v ha hb h
    cases b with
    | nil =>
      simp only [List.cons_append, List.nil_append, List.cons.injEq] at h
      exact absurd (h.1 ▸ List.mem_cons_self x xs) ha
    | cons y ys =>
      simp only [List.cons_append, List.cons.injEq] at h
      have hxs : ':' ∉ xs := fun hm => ha (List.mem_cons_of_mem x hm)
      have hys : ':' ∉ ys := fun hm => hb (List.mem_cons_of_mem y hm)
      rw [h.1, ih ys v hxs hys h.2]

lemma string_data_ext (s₁ s₂ : String) (h : s₁.data = s₂.data) : s₁ = s₂ := by
  cases s₁
  cases s₂
  exact congrArg String.mk h

lemma data_mkKey (t n : String) : (mkKey t n).data = t.data ++ ':' :: n.data := by
  rw [show (mkKey t n).data = (t.data ++ [':']) ++ n.data from rfl,
    List.append_assoc]
  rfl

lemma matchesType_true_iff (t : String) (e : PEntry) (ht : NoColon t)
    (hp : NoColon e.ptype) : matchesType t e = true ↔ e.ptype = t := by
  unfold matchesType strStartsWith keyOf
  rw [isPrefixOf_iff_exists]
  constructor
  · rintro ⟨u, hu⟩
    rw [show ((t ++ ":").data ++ u) = t.data ++ ':' :: u by
          rw [show (t ++ ":").data = t.data ++ [':'] from rfl, List.append_assoc]
          rfl,
      data_mkKey] at hu
    exact (string_data_ext _ _ (append_colon_inj t.data u e.ptype.data e.pname.data ht hp hu)).symm
  · rintro rfl
    refine ⟨e.pname.data, ?_⟩
    rw [show (e.ptype ++ ":").data ++ e.pname.data = (mkKey e.ptype e.pname).data from rfl]

lemma count_colon_keyOf (e : PEntry) (hp : NoColon e.ptype) (hn : NoColon e.pname) :
    ((keyOf e).data).count ':' = 1 := by
  rw [keyOf, data_mkKey]
  rw [List.count_append, List.count_cons_self, List.count_eq_zero.mpr hp,
    List.count_eq_zero.mpr hn]

lemma matchesType_false_of_colon (t : String) (e : PEntry) (ht : ':' ∈ t.data)
    (hp : NoColon e.ptype) (hn : NoColon e.pname) : matchesType t e = false := by
  cases hm : matchesType t e with
  | false => rfl
  | true =>
    exfalso
    unfold matchesType strStartsWith at hm
    obtain ⟨u, hu⟩ := (isPrefixOf_iff_exists _ _).mp hm
    have hcount : ((keyOf e).data).count ':' = ((t ++ ":").data).count ':' + u.count ':' := by
      rw [← hu, List.count_append]
    have h2 : ((t ++ ":").data).count ':' = t.data.count ':' + 1 := by
      rw [show (t ++ ":").data = t.data ++ [':'] from rfl, List.count_append]
      rfl
    have h3 : 1 ≤ t.data.count ':' := by
      have := List.count_eq_zero.not.mpr (by simpa using ht)
      omega
    have h4 := count_colon_keyOf e hp hn
    omega

lemma matchesType_of_keyOf_eq (t n : String) (e : PEntry)
    (h : keyOf e = mkKey t n) : matchesType t e = true := by
  unfold matchesType strStartsWith
  rw [isPrefixOf_iff_exists, h, data_mkKey]
  refine ⟨n.data, ?_⟩
  rw [show (t ++ ":").data = t.data ++ [':'] from rfl, List.append_assoc]
  rfl

lemma ptype_upd (t n : String) (e : PEntry) : (updEntry t n e).ptype = e.ptype := by
  unfold updEntry
  split_ifs <;> rfl

lemma pname_upd (t n : String) (e : PEntry) : (updEntry t n e).pname = e.pname := by
  unfold updEntry
  split_ifs <;> rfl

lemma keyOf_upd (t n : String) (e : PEntry) : keyOf (updEntry t n e) = keyOf e := by
  unfold updEntry
  split_ifs <;> rfl

lemma matchesType_upd (t' t n : String) (e : PEntry) :
    matchesType t (updEntry t' n e) = matchesType t e := by
  unfold updEntry
  split_ifs <;> rfl

lemma countP_congr_mem (l : List α) (p q : α → Bool) (h : ∀ a ∈ l, p a = q a) :
    l.countP p = l.countP q := by
  induction l with
  | nil => rfl
  | cons x xs ih =>
    rw [List.countP_cons, List.countP_cons, h x (List.mem_cons_self x xs),
      ih (fun a ha => h a (List.mem_cons_of_mem x ha))]

lemma countP_keyOf_le_one (s : List PEntry) (hnd : (s.map keyOf).Nodup)
    (k : String) : s.countP (fun e => keyOf e == k) ≤ 1 := by
  have h1 : (s.map keyOf).countP (fun x => x == k)
      = s.countP (fun e => keyOf e == k) :=
    List.countP_map (fun x => x == k) keyOf s
  have h2 : (s.map keyOf).count k = (s.map keyOf).countP (fun x => x == k) :=
    List.count_eq_countP k (s.map keyOf)
  have h3 := List.nodup_iff_count_le_one.mp hnd k
  omega

lemma WFPM_setDefault (s : List PEntry) (t n : String) (h : WFPM s) :
    WFPM (setDefault s t n) := by
  obtain ⟨hnd, hcf⟩ := h
  have hkeys : (setDefault s t n).map keyOf = s.map keyOf := by
    unfold setDefault
    rw [List.map_map]
    exact List.map_congr_left (fun e _ => keyOf_upd t n e)
  refine ⟨by rw [hkeys]; exact hnd, ?_⟩
  intro e' he'
  obtain ⟨e, he, heq⟩ := List.mem_map.mp he'
  have hpt : e'.ptype = e.ptype := by rw [← heq]; exact ptype_upd t n e
  have hpn : e'.pname = e.pname := by rw [← heq]; exact pname_upd t n e
  rw [NoColon, NoColon, hpt, hpn]
  exact hcf e he

lemma atMostOne_setDefault (s : List PEntry) (t' n' t : String) (hWF : WFPM s)
    (h : AtMostOneDefault s t) : AtMostOneDefault (setDefault s t' n') t := by
  obtain ⟨hnd, hcf⟩ := hWF
  unfold AtMostOneDefault setDefault
  rw [List.countP_map]
  by_cases hct : ':' ∈ t.data
  · have hz : ∀ e ∈ s,
        ¬ (((fun e => matchesType t e && e.isDefault) ∘ updEntry t' n') e = true) := by
      intro e he hcon
      simp only [Function.comp_apply, Bool.and_eq_true, matchesType_upd] at hcon
      rw [matchesType_false_of_colon t e hct (hcf e he).1 (hcf e he).2] at hcon
      exact absurd hcon.1 (by simp)
    rw [List.countP_eq_zero.mpr hz]
    exact Nat.zero_le 1
  · have ht : NoColon t := hct
    by_cases hct' : ':' ∈ t'.data
    · rw [countP_congr_mem s _ (fun e => matchesType t e && e.isDefault) ?_]
      · exact h
      · intro e he
        have hm : matchesType t' e = false :=
          matchesType_false_of_colon t' e hct' (hcf e he).1 (hcf e he).2
        simp only [Function.comp_apply, updEntry, hm, Bool.false_eq_true, if_false]
    · have ht' : NoColon t' := hct'
      by_cases htt : t' = t
      · subst htt
        refine le_trans (List.countP_mono_left ?_) (countP_keyOf_le_one s hnd (mkKey t' n'))
        intro e he hp
        simp only [Function.comp_apply, Bool.and_eq_true, matchesType_upd] at hp
        obtain ⟨hm, hd⟩ := hp
        simp only [updEntry, hm, if_true] at hd
        exact hd
      · rw [countP_congr_mem s _ (fun e => matchesType t e && e.isDefault) ?_]
        · exact h
        · intro e he
          by_cases hm' : matchesType t' e = true
          · have hpt : e.ptype = t' :=
              (matchesType_true_iff t' e ht' (hcf e he).1).mp hm'
            have hmt : matchesType t e = false := by
              cases hmt : matchesType t e with
              | false => rfl
              | true =>
                refine absurd ?_ htt
                rw [← hpt]
                exact (matchesType_true_iff t e ht (hcf e he).1).mp hmt
            simp only [Function.comp_apply, matchesType_upd, hmt,
              Bool.false_and]
          · have hm'' : matchesType t' e = false := by
              cases hmm : matchesType t' e with
              | false => rfl
              | true => exact absurd hmm hm'
            simp only [Function.comp_apply, updEntry, hm'', Bool.false_eq_true, if_false]

lemma atMostOne_applyCalls (s : List PEntry) (calls : List (String × String))
    (hWF : WFPM s) (hinit : ∀ t, AtMostOneDefault s t) :
    ∀ t, AtMostOneDefault (applyCalls s calls) t := by
  induction calls generalizing s with
  | nil => exact hinit
  | cons c rest ih =>
    exact ih (setDefault s c.1 c.2) (WFPM_setDefault s c.1 c.2 hWF)
      (fun t => atMostOne_setDefault s c.1 c.2 t hWF (hinit t))

lemma atMostOneDefault_of_global (s : List PEntry)
    (h : s.countP (fun e => e.isDefault) ≤ 1) (t : String) :
    AtMostOneDefault s t :=
  le_trans (List.countP_mono_left (fun e _ hp => by
    simp only [Bool.and_eq_true] at hp
    exact hp.2)) h

/-! ## Claim C4 -/

/-- The vapi voice descriptor of the C4 scenario. -/
def exVapi : PEntry := ⟨"voice", "vapi", 1, false, true, none⟩

/-- The twilio voice descriptor of the C4 scenario. -/
def exTwilio : PEntry := ⟨"voice", "twilio", 2, true, true, none⟩

/-- A descriptor of another type, untouched by the C4 scenario. -/
def exWhats : PEntry := ⟨"messaging", "whatsapp_business", 3, true, true, none⟩

/-- The manager state of the C4 scenario. -/
def exPM : List PEntry := [exVapi, exTwilio, exWhats]

/-- The call sequence of the C4 scenario:
`setDefault("voice","twilio")` then `setDefault("voice","vapi")`. -/
def exCalls : List (String × String) := [("voice", "twilio"), ("voice", "vapi")]

/-- C4: starting from any well-formed manager state (distinct map keys,
colon-free registered types and names — guaranteed by the
`ProviderRegistry` gate in `initializeProvider`) in which every type has at
most one default, any sequence of `setDefault` calls leaves, for every
type, at most one registered provider marked default; and in the concrete
scenario, `setDefault("voice","twilio")` followed by
`setDefault("voice","vapi")` leaves the vapi descriptor as the only voice
default, with `get("voice")` (no name) returning the vapi instance. -/
theorem c4_at_most_one_default :
    (∀ (s : List PEntry) (calls : List (String × String)), WFPM s →
        (∀ t, AtMostOneDefault s t) →
        ∀ t, AtMostOneDefault (applyCalls s calls) t)
    ∧ pmGet (applyCalls exPM exCalls) "voice" none = some 1
    ∧ (applyCalls exPM exCalls).filter (fun e => matchesType "voice" e && e.isDefault)
        = [⟨"voice", "vapi", 1, true, true, none⟩] := by
  refine ⟨fun s calls hWF hinit => atMostOne_applyCalls s calls hWF hinit,
    by decide, by decide⟩

/-- An initial manager state with no defaults, used by the C4 witness. -/
def exPM0 : List PEntry :=
  [⟨"voice", "vapi", 1, false, true, none⟩, ⟨"voice", "twilio", 2, false, true, none⟩]

/-- C4 witness: the invariant theorem applied to the concrete state
`exPM0` and the concrete call sequence `exCalls`. -/
theorem c4_at_most_one_default_witness :
    AtMostOneDefault (applyCalls exPM0 exCalls) "voice" :=
  c4_at_most_one_default.1 exPM0 exCalls ⟨by decide, by decide⟩
    (atMostOneDefault_of_global exPM0 (by decide)) "voice"

/-! ## Claim C9 -/

/-- C9 (amended): `get` and `setDefault` on the manager always complete
normally — `get` with an unknown type or unregistered name yields nothing
rather than signalling a configuration error, and `setDefault` with an
unregistered name completes while marking no provider of that type default
— but neither operation ever substitutes a provider of a different type:
any instance `get` returns belongs to an entry whose key matches the
requested type. -/
theorem c9_lookup_silent_but_type_safe :
    ∀ (s : List PEntry) (t : String) (name : Option String) (n : String),
      pmGetE s t name = .ok (pmGet s t name)
      ∧ setDefaultE s t n = .ok (setDefault s t n)
      ∧ (∀ i, pmGet s t name = some i →
          ∃ e, e ∈ s ∧ e.instId = i ∧ matchesType t e = true)
      ∧ (mkKey t n ∉ s.map keyOf →
          (setDefault s t n).countP (fun e => matchesType t e && e.isDefault) = 0) := by
  intro s t name n
  refine ⟨rfl, rfl, ?_, ?_⟩
  · intro i hi
    unfold pmGet at hi
    by_cases htr : jsTruthyName name = true
    · rw [if_pos htr] at hi
      obtain ⟨e, hfind, hinst⟩ := Option.map_eq_some'.mp hi
      have hb := List.find?_some hfind
      simp only [beq_iff_eq] at hb
      exact ⟨e, List.mem_of_find?_eq_some hfind, hinst,
        matchesType_of_keyOf_eq _ _ e hb⟩
    · rw [if_neg htr] at hi
      cases hfd : s.find? (fun e => matchesType t e && e.isDefault) with
      | some e =>
        rw [hfd] at hi
        have hp := List.find?_some hfd
        simp only [Bool.and_eq_true] at hp
        exact ⟨e, List.mem_of_find?_eq_some hfd, Option.some.inj hi, hp.1⟩
      | none =>
        rw [hfd] at hi
        obtain ⟨e, hfind, hinst⟩ := Option.map_eq_some'.mp hi
        exact ⟨e, List.mem_of_find?_eq_some hfind, hinst, List.find?_some hfind⟩
  · intro hnk
    apply List.countP_eq_zero.mpr
    intro e' he' hcon
    unfold setDefault at he'
    obtain ⟨e, he, heq⟩ := List.mem_map.mp he'
    simp only [← heq, Bool.and_eq_true, matchesType_upd] at hcon
    obtain ⟨hm, hd⟩ := hcon
    simp only [updEntry, hm, if_true] at hd
    exact hnk (beq_iff_eq.mp hd ▸ List.mem_map_of_mem keyOf he)

/-- The one-provider manager state of the C9 examples. -/
def exS9 : List PEntry := [⟨"voice", "vapi", 1, true, true, none⟩]

/-- `exS9` after `setDefault("voice","bogus")`: the default flag is
silently cleared. -/
def exS9' : List PEntry := [⟨"voice", "vapi", 1, false, true, none⟩]

/-- C9 counterexample: `get` with the unknown type "fax" resolves normally
with nothing instead of signalling a `ProviderLookupFailure`; `setDefault`
with the unregistered name "bogus" resolves normally, silently clears the
voice default, and a later `get("voice")` silently falls back to the first
registered voice provider. -/
theorem c9_counterexample :
    pmGetE exS9 "fax" none = .ok none
    ∧ setDefaultE exS9 "voice" "bogus" = .ok exS9'
    ∧ pmGet exS9' "voice" none = some 1 := by
  refine ⟨rfl, rfl, by decide⟩

/-- C9 witness: the amended theorem applied to the concrete state `exS9`
with the unregistered name "bogus". -/
theorem c9_lookup_silent_but_type_safe_witness :
    pmGetE exS9 "voice" none = .ok (pmGet exS9 "voice" none)
    ∧ mkKey "voice" "bogus" ∉ exS9.map keyOf
    ∧ (setDefault exS9 "voice" "bogus").countP
        (fun e => matchesType "voice" e && e.isDefault) = 0 :=
  ⟨(c9_lookup_silent_but_type_safe exS9 "voice" none "bogus").1, by decide,
   (c9_lookup_silent_but_type_safe exS9 "voice" none "bogus").2.2.2 (by decide)⟩

/-! ## Claim C10 -/

/-- C10 (amended): for every non-empty explicitly supplied name, `get`
performs exactly the map lookup of the pair `(type, name)` — it returns
the instance registered under that exact key, or nothing when the pair is
not registered, never falling back to the type's default or first
provider.  (The empty string, though a supplied name, is falsy in JS and
takes the no-name default path — see the counterexample.) -/
theorem c10_named_get_is_exact :
    ∀ (s : List PEntry) (t n : String), n ≠ "" →
      pmGet s t (some n)
          = (s.find? (fun e => keyOf e == mkKey t n)).map (fun e => e.instId)
      ∧ (∀ i, pmGet s t (some n) = some i →
          ∃ e, e ∈ s ∧ keyOf e = mkKey t n ∧ e.instId = i)
      ∧ ((∀ e ∈ s, keyOf e ≠ mkKey t n) → pmGet s t (some n) = none) := by
  intro s t n hn
  have htr : jsTruthyName (some n) = true := by
    simp [jsTruthyName, hn]
  have h1 : pmGet s t (some n)
      = (s.find? (fun e => keyOf e == mkKey t n)).map (fun e => e.instId) := by
    unfold pmGet
    rw [if_pos htr]
    rfl
  refine ⟨h1, ?_, ?_⟩
  · intro i hi
    rw [h1] at hi
    obtain ⟨e, hfind, hinst⟩ := Option.map_eq_some'.mp hi
    have hb := List.find?_some hfind
    simp only [beq_iff_eq] at hb
    exact ⟨e, List.mem_of_find?_eq_some hfind, hb, hinst⟩
  · intro hall
    rw [h1, List.find?_eq_none.mpr ?_]
    · rfl
    · intro e he hcon
      exact hall e he (beq_iff_eq.mp hcon)

/-- The manager state of the C10 examples: vapi is the registered voice
default with instance 7; no provider is registered under the key
`"voice:"`. -/
def exS10 : List PEntry := [⟨"voice", "vapi", 7, true, true, none⟩]

/-- C10 counterexample: the explicitly supplied name `""` does not produce
"nothing" for the unregistered pair `("voice","")` — it falls back to the
voice default and returns the vapi instance. -/
theorem c10_counterexample :
    pmGet exS10 "voice" (some "") = some 7
    ∧ mkKey "voice" "" ∉ exS10.map keyOf := by
  refine ⟨by decide, by decide⟩

/-- C10 witness: the exact-lookup theorem applied at the concrete state
`exS10` with the non-empty name "vapi". -/
theorem c10_named_get_is_exact_witness :
    pmGet exS10 "voice" (some "vapi") = some 7 :=
  ((c10_named_get_is_exact exS10 "voice" "vapi" (by decide)).1).trans (by decide)

end ZeroTouch
